import Mathlib

/-!
Verification of the registrator reconciliation core.

This file shallowly embeds the bridge (service lifecycle orchestration and
dangling-entry sweep), the identity scheme, the storage ledger, the adapter
capability registry and the startup retry loop of the registrator repository,
and proves or refutes the frozen claims about them.

Conventions of the embedding:
* machine strings are Lean `String` / `List Char`; file bytes are `List Char`;
* the file system visible to the bridge (the configuration directory tree) is
  an association list `path ↦ Option bytes` where `none` models a file that
  exists (is enumerated) but cannot be read;
* Go maps are association lists with insert-replace semantics; iteration order
  is the list order;
* `json.Unmarshal` into a `Service`, `GenerateRandomID` and the backend are
  external effects and are parameters of the embedding (`Env`): `parse` is the
  JSON decoding function, `rands` the stream of successive random IDs,
  `registerOk` the backend's answer to a Register call;
* a Go `nil`-pointer dereference (panic) or a `log.Fatal` is modelled by an
  `ok := false` outcome carrying the backend calls made up to that point.
-/

namespace Registrator

/-! ### Association lists standing for Go maps -/

/-- Lookup in a Go map modelled as an association list. -/
def mapGet {α : Type} : List (String × α) → String → Option α
  | [], _ => none
  | (k', v) :: rest, k => if k' = k then some v else mapGet rest k

/-- Go map assignment `m[k] = v`: replace in place, or append a new binding. -/
def mapInsert {α : Type} : List (String × α) → String → α → List (String × α)
  | [], k, v => [(k, v)]
  | (k', v') :: rest, k, v =>
    if k' = k then (k, v) :: rest else (k', v') :: mapInsert rest k v

/-- Go `delete(m, k)`. -/
def mapDelete {α : Type} (m : List (String × α)) (k : String) : List (String × α) :=
  m.filter (fun p => p.fst ≠ k)

/-! ### Character classes of the service-ID pattern

`serviceIDPattern = ^\[(.+?)\]:([a-zA-Z0-9][a-zA-Z0-9_.-]+):[0-9]+$`
(src/bridge/bridge.go). -/

/-- Character class `[a-zA-Z0-9]` (ASCII, as in the Go regexp). -/
def isAlnumA (c : Char) : Bool := c.isAlpha || c.isDigit

/-- Character class `[a-zA-Z0-9_.-]`. -/
def isRidChar (c : Char) : Bool := isAlnumA c || c = '_' || c = '.' || c = '-'

/-- Whether a char list matches `[a-zA-Z0-9][a-zA-Z0-9_.-]+` in full. -/
def ridMatches : List Char → Bool
  | [] => false
  | c :: cs => isAlnumA c && !cs.isEmpty && cs.all isRidChar

/-- Match the tail `([a-zA-Z0-9][a-zA-Z0-9_.-]+):[0-9]+$` of the service-ID
pattern against the characters after `"]:"`.  Since neither the rid class nor
a digit can be `':'`, the regexp match is equivalent to splitting at the first
`':'`. Returns the captured rid and the port digits. -/
def tailMatch (l : List Char) : Option (List Char × List Char) :=
  let rid := l.takeWhile (fun c => c ≠ ':')
  match l.dropWhile (fun c => c ≠ ':') with
  | ':' :: port =>
    if ridMatches rid && !port.isEmpty && port.all Char.isDigit then
      some (rid, port)
    else
      none
  | _ => none

/-- Scan for the non-greedy host capture `(.+?)`: try every position, in
increasing host length, where the remaining input starts with `"]:"` and the
rest matches `tailMatch`; `acc` holds the (reversed) host candidate so far.
Returns `(host, rid, port)` for the first (shortest-host) success, exactly as
the non-greedy regexp does. -/
def findSplit (acc : List Char) : List Char → Option (List Char × List Char × List Char)
  | [] => none
  | ']' :: ':' :: tail =>
    match tailMatch tail, acc with
    | some (rid, port), _ :: _ => some (acc.reverse, rid, port)
    | _, _ => findSplit (']' :: acc) (':' :: tail)
  | c :: rest => findSplit (c :: acc) rest

/-- Model of `serviceIDPattern.FindStringSubmatch`: `none` when the ID does not match
(`len(matches) != 3` in the Go code), otherwise the (host, rid, port digits)
captures. -/
def parseServiceID (s : String) : Option (String × String × String) :=
  match s.toList with
  | '[' :: rest =>
    match findSplit [] rest with
    | some (host, rid, port) => some (host.asString, rid.asString, port.asString)
    | none => none
  | _ => none

/-! ### Path helpers (`filepath.Base`, `filepath.Ext`, `strings.TrimSuffix`) -/

/-- Model of `filepath.Base`: the last path component. -/
def basename (p : String) : List Char :=
  (p.toList.reverse.takeWhile (fun c => c ≠ '/')).reverse

/-- Model of `strings.TrimSuffix(x, filepath.Ext(x))`: drop the extension, i.e.
everything from the last `'.'` of the last path component (if any). -/
def trimExtChars (l : List Char) : List Char :=
  let rev := l.reverse
  if (rev.takeWhile (fun c => c ≠ '/')).contains '.' then
    ((rev.dropWhile (fun c => c ≠ '.')).drop 1).reverse
  else
    l

/-- Model of `strings.TrimSuffix(filepath.Base(path), filepath.Ext(path))`. -/
def baseNoExt (p : String) : List Char := trimExtChars (basename p)

/-! ### The rid pattern `^.+-rid(.+?)$` (src/bridge/bridge.go) -/

/-- Capture of `rIDPattern = ^.+-rid(.+?)$`: the characters after the *last*
occurrence of `"-rid"` that leaves a nonempty prefix before it and a nonempty
suffix after it (the greedy `.+` makes the prefix longest, so the match is at
the last such occurrence).  `pre` holds the (reversed) characters already
passed. -/
def lastRid (pre : List Char) : List Char → Option (List Char)
  | [] => none
  | c :: rest =>
    match lastRid (c :: pre) rest with
    | some r => some r
    | none =>
      match c, rest with
      | '-', 'r' :: 'i' :: 'd' :: suf =>
        if pre.isEmpty || suf.isEmpty then none else some suf
      | _, _ => none

/-- The rid encoded in a path's file name, when present
(`rIDPattern.FindStringSubmatch(TrimSuffix(Base(path), Ext(path)))[1]`). -/
def ridOfPath (p : String) : Option String :=
  (lastRid [] (baseNoExt p)).map List.asString

/-- Model of `Bridge.hasRID` (src/bridge/bridge.go): whether the file name (without
extension) matches `^.+-rid(.+?)$`. -/
def hasRID (p : String) : Bool := (ridOfPath p).isSome

/-! ### Data model (src/bridge/types.go) -/

/-- The fields of a `Service` that `json.Unmarshal` fills from a definition
file (src/bridge/types.go): `name`, `port`, `address`, `tags`, `attrs`. -/
structure SvcDef where
  name : String
  port : Int
  ip : String
  tags : List String
  attrs : List (String × String)
deriving DecidableEq, Repr

/-- The `bridge.Service` record. -/
structure Service where
  id : String
  name : String
  port : Int
  ip : String
  tags : List String
  attrs : List (String × String)
  ttl : Int
deriving DecidableEq, Repr

/-- The `bridge.Config` record. -/
structure Config where
  hostIP : String
  refreshTTL : Int
  refreshInterval : Int
  confDir : String
  cleanup : Bool
deriving DecidableEq, Repr

/-- A backend call issued by the bridge, as recorded in a trace. -/
inductive BCall where
  | register (s : Service)
  | deregister (s : Service)
deriving DecidableEq, Repr

/-- Whether a backend call is a Register call. -/
def BCall.isReg : BCall → Bool
  | .register _ => true
  | .deregister _ => false

/-- The external effects the bridge code consumes: the local hostname
(`bridge.Hostname`), JSON decoding of definition files (`json.Unmarshal`),
the stream of `GenerateRandomID` results, the backend's responses to
`Register` calls and to `Services()`, and whether `RecursiveFilesLookup`
errors.  (`Deregister` results are ignored by the bridge except for logging,
so they are not modelled.) -/
structure Env where
  hostname : String
  parse : List Char → Option SvcDef
  rands : Nat → String
  registerOk : Service → Bool
  backendList : Option (List Service)
  lookupFail : Bool

/-- The bridge-visible mutable state: the `b.services` map, the configuration
directory tree (`path ↦ Option bytes`; `none` = present but unreadable), and
the cursor into the random-ID stream. -/
structure BridgeState where
  services : List (String × Service)
  fs : List (String × Option (List Char))
  randIdx : Nat
deriving DecidableEq, Repr

/-- Result of running a bridge operation: the state afterwards, the backend
calls made (in order, including failed ones), and whether the operation
finished normally (`ok := false` models a Go panic or `log.Fatal`). -/
structure RunResult where
  st : BridgeState
  calls : List BCall
  ok : Bool
deriving DecidableEq, Repr

/-- Model of `ioutil.ReadFile` against the modelled directory tree. -/
def readFile (fs : List (String × Option (List Char))) (p : String) : Option (List Char) :=
  match mapGet fs p with
  | some (some b) => some b
  | _ => none

/-- The ID format `fmt.Sprintf("[%s]:%s:%d", hostname, rid, service.Port)`. -/
def mkServiceID (host rid : String) (port : Int) : String :=
  "[" ++ host ++ "]:" ++ rid ++ ":" ++ toString port

/-! ### Bridge operations (src/bridge/bridge.go) -/

/-- The service `Bridge.newService` builds from decoded fields `d` and rid
segment `rid`: `ID = [hostname]:rid:port`, `TTL` from the configuration. -/
def mkService (env : Env) (cfg : Config) (rid : String) (d : SvcDef) : Service :=
  { id := mkServiceID env.hostname rid d.port, name := d.name, port := d.port,
    ip := d.ip, tags := d.tags, attrs := d.attrs, ttl := cfg.refreshTTL }

/-- Model of `Bridge.newService`: read the file (`none` on read failure), decode it
(`none` on parse failure), then draw a random ID — replaced by the file
name's rid when the path carries one — and build the service with
`ID = [hostname]:rid:port` and `TTL` from the configuration.  The random
draw advances the stream cursor. -/
def newService (env : Env) (cfg : Config) (st : BridgeState) (path : String) :
    BridgeState × Option Service :=
  match readFile st.fs path with
  | none => (st, none)
  | some bytes =>
    match env.parse bytes with
    | none => (st, none)
    | some d =>
      let draw := env.rands st.randIdx
      let st' := { st with randIdx := st.randIdx + 1 }
      let rid := if hasRID path then ((ridOfPath path).getD "") else draw
      (st', some (mkService env cfg rid d))

/-- The renamed path `fmt.Sprintf("%s-rid%s.json", TrimSuffix(path, Ext(path)), rid)`
used by `Bridge.add`. -/
def ridPath (path rid : String) : String :=
  (trimExtChars path.toList).asString ++ "-rid" ++ rid ++ ".json"

/-- Model of `Bridge.add` (src/bridge/bridge.go): construct the candidate service;
if the path already carries a rid, store it in `b.services` without any
backend call (dereferencing `nil` — a panic — when construction failed);
otherwise skip a `nil` service, call `Register`, stop on failure without
recording, and on success rename the definition file to carry the rid
(extracted back out of the ID via `serviceIDPattern`, panicking when the ID
does not match) and record the service. -/
def Bridge.add (env : Env) (cfg : Config) (st : BridgeState) (path : String)
    (quiet : Bool) : RunResult :=
  let res := newService env cfg st path
  let st₁ := res.1
  if hasRID path then
    match res.2 with
    | none => ⟨st₁, [], false⟩
    | some svc => ⟨{ st₁ with services := mapInsert st₁.services svc.id svc }, [], true⟩
  else
    match res.2 with
    | none => ⟨st₁, [], true⟩
    | some svc =>
      if env.registerOk svc then
        match parseServiceID svc.id with
        | none => ⟨st₁, [BCall.register svc], false⟩
        | some (_, rid, _) =>
          let newpath := ridPath path rid
          let fs' := mapInsert (mapDelete st₁.fs path) newpath (readFile st₁.fs path)
          ⟨{ st₁ with fs := fs',
                      services := mapInsert st₁.services svc.id svc },
           [BCall.register svc], true⟩
      else ⟨st₁, [BCall.register svc], true⟩

/-- The loop body of `Bridge.remove`: walk `b.services`; entries whose ID does
not match `serviceIDPattern` are left alone; entries whose rid capture equals
the path's rid are deregistered and deleted.  Returns the surviving entries
and the deregister calls. -/
def removeLoop (rid : String) : List (String × Service) →
    List (String × Service) × List BCall
  | [] => ([], [])
  | (id, svc) :: rest =>
    match parseServiceID id with
    | none =>
      let r := removeLoop rid rest
      ((id, svc) :: r.1, r.2)
    | some (_, r2, _) =>
      if r2 = rid then
        let r := removeLoop rid rest
        (r.1, BCall.deregister svc :: r.2)
      else
        let r := removeLoop rid rest
        ((id, svc) :: r.1, r.2)

/-- Model of `Bridge.remove` (src/bridge/bridge.go): a path without a rid suffix is a
no-op; otherwise every `b.services` entry whose ID's rid capture equals the
path's rid is deregistered (result ignored) and deleted. -/
def Bridge.remove (st : BridgeState) (path : String) : RunResult :=
  if hasRID path then
    let rid := (ridOfPath path).getD ""
    let r := removeLoop rid st.services
    ⟨{ st with services := r.1 }, r.2, true⟩
  else ⟨st, [], true⟩

/-! ### Sync (src/bridge/bridge.go) -/

/-- Model of `filepath.Match("*json", name)`: the base name ends in `"json"`. -/
def matchStarJson (name : List Char) : Bool :=
  "json".toList.isSuffixOf name

/-- The paths `RecursiveFilesLookup(b.config.ConfDir, "*json")` returns for
the modelled directory tree: every file whose base name matches `*json`. -/
def jsonFiles (fs : List (String × Option (List Char))) : List String :=
  (fs.map Prod.fst).filter (fun p => matchStarJson (basename p))

/-- The per-file loop of `Sync`: construct the candidate service (the
unchecked `service.ID` access panics when construction failed), then either
re-`Register` directly (ID already known) or go through `add`. -/
def syncLoop (env : Env) (cfg : Config) (quiet : Bool) :
    List String → BridgeState → RunResult
  | [], st => ⟨st, [], true⟩
  | path :: rest, st =>
    let res := newService env cfg st path
    match res.2 with
    | none => ⟨res.1, [], false⟩
    | some svc =>
      if (mapGet res.1.services svc.id).isSome then
        let r := syncLoop env cfg quiet rest res.1
        ⟨r.st, BCall.register svc :: r.calls, r.ok⟩
      else
        let a := Bridge.add env cfg res.1 path quiet
        if a.ok then
          let r := syncLoop env cfg quiet rest a.st
          ⟨r.st, a.calls ++ r.calls, r.ok⟩
        else ⟨a.st, a.calls, false⟩

/-- The inner membership scan of the dangling sweep:
`for i := range b.services { if rid == serviceIDPattern.FindStringSubmatch(i)[2] … }`.
`none` models the panic when a visited key does not match the pattern
(indexing `[2]` into a `nil` submatch slice). -/
def innerScan (rid : String) : List (String × Service) → Option Bool
  | [] => some false
  | (id, _) :: rest =>
    match parseServiceID id with
    | none => none
    | some (_, r, _) => if r = rid then some true else innerScan rid rest

/-- The dangling-entry sweep of `Sync` (cleanup phase): for each live backend
entry, skip it when its ID does not match `serviceIDPattern` or its host
capture differs from the local hostname; otherwise deregister it unless its
rid capture occurs among the rids of `b.services`.  Returns the deregister
calls made and whether the sweep finished without panicking. -/
def sweepLoop (env : Env) (svcs : List (String × Service)) :
    List Service → List BCall × Bool
  | [] => ([], true)
  | ext :: rest =>
    match parseServiceID ext.id with
    | none => sweepLoop env svcs rest
    | some (host, rid, _) =>
      if host = env.hostname then
        match innerScan rid svcs with
        | none => ([], false)
        | some true => sweepLoop env svcs rest
        | some false =>
          let r := sweepLoop env svcs rest
          (BCall.deregister ext :: r.1, r.2)
      else sweepLoop env svcs rest

/-- Model of `Bridge.Sync` (src/bridge/bridge.go): enumerate `*json` files (an
enumeration error returns when `quiet`, `log.Fatal`s otherwise), run the
per-file loop, then — when cleanup is enabled — fetch the backend's live
service list (an error logs and returns) and run the dangling sweep. -/
def Bridge.sync (env : Env) (cfg : Config) (st : BridgeState) (quiet : Bool) :
    RunResult :=
  if env.lookupFail then
    if quiet then ⟨st, [], true⟩ else ⟨st, [], false⟩
  else
    let r := syncLoop env cfg quiet (jsonFiles st.fs) st
    if !r.ok then ⟨r.st, r.calls, false⟩
    else if cfg.cleanup then
      match env.backendList with
      | none => ⟨r.st, r.calls, true⟩
      | some exts =>
        let s := sweepLoop env r.st.services exts
        ⟨r.st, r.calls ++ s.1, s.2⟩
    else ⟨r.st, r.calls, true⟩

/-! ### Adapter capability registry (src/bridge/types.go) -/

/-- A registered component as the extension point sees it: an opaque value
plus the name `reflect.TypeOf(component).Elem().Name()` would report, used
when `register` is called with an empty name. -/
structure FactoryV where
  tyName : String
  tag : Nat
deriving DecidableEq, Repr

/-- Model of `extensionPoint.register` (src/bridge/types.go): an empty name is replaced
by the component's type name; a name that is already bound is left untouched
and `false` is returned; otherwise the binding is added and `true` returned. -/
def epRegister (components : List (String × FactoryV)) (comp : FactoryV)
    (name : String) : Bool × List (String × FactoryV) :=
  let n := if name = "" then comp.tyName else name
  if (mapGet components n).isSome then (false, components)
  else (true, mapInsert components n comp)

/-- Model of `adapterFactoryExt.Lookup` (src/bridge/types.go): a plain read of the
components map; `none` is the `(nil, false)` result. -/
def epLookup (components : List (String × FactoryV)) (name : String) :
    Option FactoryV :=
  mapGet components name

/-! ### Storage ledger (storage.go, provided as src/unnamed/part_000) -/

/-- The reserved name `bridge.StorageName`. -/
def StorageName : String := "storage.json"

/-- The `bridge.ServiceMeta` record `(service_id, service_sha1)`. -/
structure ServiceMeta where
  id : String
  sha1 : String
deriving DecidableEq, Repr

/-- Model of `Storage.Add` (src/unnamed/part_000): re-read the definition file at
`name`; on a read error return that error with nothing else done.  Otherwise
build the metadata entry with the content hash, store it under `name`, and
flush the whole ledger to the backing file (whose own write outcome is
`writeErr`).  The result is `(returned error, new metadata map, number of
backing-file write attempts)`.  `readF` models `ioutil.ReadFile` and
`hash` models the hex-encoded `sha1.Sum`. -/
def storageAdd (readF : String → Except String (List Char))
    (hash : List Char → String) (writeErr : Option String)
    (metadata : List (String × ServiceMeta)) (name serviceID : String) :
    Option String × List (String × ServiceMeta) × Nat :=
  match readF name with
  | .error e => (some e, metadata, 0)
  | .ok bytes =>
    let meta : ServiceMeta := { id := serviceID, sha1 := hash bytes }
    (writeErr, mapInsert metadata name meta, 1)

/-! ### Startup retry loop (src/main.go) -/

/-- Outcome of the startup connection loop: `proceed n` — a `Ping` succeeded
(or the loop condition failed at entry) after `n` `Ping` calls and startup
continues; `fatal n` — `failOnError` terminated the process after `n` calls;
`running n` — the loop is still going after `n` calls (used to express the
unbounded `-1` case under a step budget). -/
inductive RetryOutcome where
  | proceed (pings : Nat)
  | fatal (pings : Nat)
  | running (pings : Nat)
deriving DecidableEq, Repr

/-- The loop `for *retryAttempts == -1 || attempt <= *retryAttempts { … }` of
`main` (src/main.go): ping; break on success; `failOnError` when the attempt
index equals `retryAttempts`; otherwise sleep and try the next attempt.
`ping k` tells whether the `k`-th `Ping` call succeeds, `fuel` bounds the
number of iterations we unfold. -/
def retryLoopAux (ping : Nat → Bool) (ra : Int) : Nat → Nat → RetryOutcome
  | attempt, 0 => .running attempt
  | attempt, fuel + 1 =>
    if ra = -1 ∨ (attempt : Int) ≤ ra then
      if ping attempt then .proceed (attempt + 1)
      else if (attempt : Int) = ra then .fatal (attempt + 1)
      else retryLoopAux ping ra (attempt + 1) fuel
    else .proceed attempt

/-- The startup loop started at `attempt := 0`. -/
def retryLoop (ping : Nat → Bool) (ra : Int) (fuel : Nat) : RetryOutcome :=
  retryLoopAux ping ra 0 fuel

/-! ### Concrete inputs used by counterexamples and witnesses -/

/-- Bytes of a sample definition file `{"name":"web","port":8080}`. -/
def demoBytesA : List Char := "\x7b\"name\":\"web\",\"port\":8080\x7d".toList

/-- Bytes of a second sample definition file differing from `demoBytesA`
(the `name` field changed, the `port` unchanged). -/
def demoBytesB : List Char := "\x7b\"name\":\"web2\",\"port\":8080\x7d".toList

/-- Decoded fields of `demoBytesA`. -/
def demoDefA : SvcDef := { name := "web", port := 8080, ip := "", tags := [], attrs := [] }

/-- Decoded fields of `demoBytesB`. -/
def demoDefB : SvcDef := { name := "web2", port := 8080, ip := "", tags := [], attrs := [] }

/-- A concrete JSON decoder for the two sample files. -/
def demoParse (bs : List Char) : Option SvcDef :=
  if bs = demoBytesA then some demoDefA
  else if bs = demoBytesB then some demoDefB
  else none

/-- A concrete environment: host `h1`, the sample decoder, a constant random
stream, a backend that accepts every registration and reports no services. -/
def demoEnv : Env :=
  { hostname := "h1", parse := demoParse, rands := fun _ => "zz9900",
    registerOk := fun _ => true, backendList := some [], lookupFail := false }

/-- A concrete configuration (cleanup disabled). -/
def demoCfg : Config :=
  { hostIP := "", refreshTTL := 0, refreshInterval := 0,
    confDir := "/etc/registrator", cleanup := false }

/-- A rid-suffixed definition-file path. -/
def demoRidPath : String := "/etc/registrator/svc-a-ridab12.json"

/-- A definition-file path without a rid suffix. -/
def demoFreshPath : String := "/etc/registrator/svc-a.json"

/-- State for the C3 counterexample: one rid-suffixed definition file, no
services recorded yet. -/
def c3st : BridgeState := { services := [], fs := [(demoRidPath, some demoBytesA)], randIdx := 0 }

/-- State for the C4 failing input: an unreadable definition file followed by
a perfectly good one. -/
def c4st : BridgeState :=
  { services := [],
    fs := [("/etc/registrator/bad.json", none), ("/etc/registrator/good.json", some demoBytesA)],
    randIdx := 0 }

/-- Directory contents for the C6 counterexample: the ledger's backing file
sits in the configuration directory next to a definition file. -/
def c6fs : List (String × Option (List Char)) :=
  [("/etc/registrator/storage.json", some "\x7b\"metadata\":\x7b\x7d\x7d".toList),
   (demoFreshPath, some demoBytesA)]

/-- State with a single fresh (rid-less) definition file. -/
def freshSt : BridgeState :=
  { services := [], fs := [(demoFreshPath, some demoBytesA)], randIdx := 0 }

/-- State for the C1 witness: the rid-suffixed file holding the second byte
content. -/
def c1stB : BridgeState :=
  { services := [], fs := [(demoRidPath, some demoBytesB)], randIdx := 0 }

/-- An environment whose backend rejects every registration. -/
def failEnv : Env := { demoEnv with registerOk := fun _ => false }

/-- A live backend entry registered by another host (`h2`). -/
def extForeign : Service :=
  { id := "[h2]:ab12:8080", name := "w", port := 8080, ip := "", tags := [],
    attrs := [], ttl := 0 }

/-- A live backend entry whose ID does not match the service-ID pattern. -/
def extNoMatch : Service :=
  { id := "garbage", name := "w", port := 1, ip := "", tags := [], attrs := [],
    ttl := 0 }

/-- Environment for the C2 witness: the backend reports a foreign entry and a
pattern-less entry. -/
def sweepEnv : Env := { demoEnv with backendList := some [extForeign, extNoMatch] }

/-- Configuration with the dangling cleanup enabled. -/
def sweepCfg : Config := { demoCfg with cleanup := true }

/-- A sample recorded service used in the C7 witness state. -/
def demoSvcZ : Service :=
  { id := "[h1]:zz9900:8080", name := "w", port := 8080, ip := "", tags := [],
    attrs := [], ttl := 0 }

/-- State for the C7 witness: one recorded entry whose key does not match the
ID pattern and one with rid `zz9900`; neither matches the path rid `qq77`. -/
def c7st : BridgeState :=
  { services := [("garbage", demoSvcZ), ("[h1]:zz9900:8080", demoSvcZ)],
    fs := [], randIdx := 0 }

end Registrator

/-! Sanity examples (kept as anonymous `example`s; they are not claim
theorems). -/

example : Registrator.parseServiceID "[h1]:ab12:8080" = some ("h1", "ab12", "8080") := by
  decide

example : Registrator.parseServiceID "[h]:b]:xy12:8" = some ("h]:b", "xy12", "8") := by
  decide

example : Registrator.parseServiceID "foo" = none := by decide

example : Registrator.parseServiceID "[h1]:a:8080" = none := by decide

example : Registrator.ridOfPath "/etc/registrator/svc-a-ridab12.json" = some "ab12" := by
  decide

example : Registrator.ridOfPath "/etc/registrator/svc-a.json" = none := by decide

example : Registrator.ridOfPath "a-ridX-rid.json" = some "X-rid" := by decide

namespace Registrator

/-! ### Shared lemmas about the Go-map model -/

theorem mapGet_mapInsert_self {α : Type} (m : List (String × α)) (k : String) (v : α) :
    mapGet (mapInsert m k v) k = some v := by
  induction m with
  | nil => simp [mapInsert, mapGet]
  | cons p rest ih =>
    obtain ⟨k', v'⟩ := p
    by_cases h : k' = k
    · simp [mapInsert, h, mapGet]
    · simp [mapInsert, h, mapGet, ih]

theorem mapGet_mapInsert_ne {α : Type} (m : List (String × α)) (k k' : String) (v : α)
    (h : k' ≠ k) : mapGet (mapInsert m k' v) k = mapGet m k := by
  induction m with
  | nil => simp [mapInsert, mapGet, h]
  | cons p rest ih =>
    obtain ⟨k'', v''⟩ := p
    by_cases h2 : k'' = k'
    · simp [mapInsert, h2, mapGet, h]
    · simp [mapInsert, h2, mapGet, ih]

theorem mapGet_mapDelete_self {α : Type} (m : List (String × α)) (k : String) :
    mapGet (mapDelete m k) k = none := by
  induction m with
  | nil => simp [mapDelete, mapGet]
  | cons p rest ih =>
    obtain ⟨k', v'⟩ := p
    by_cases h : k' = k
    · simpa [mapDelete, h] using ih
    · simpa [mapDelete, h, mapGet] using ih

theorem mapInsert_mapInsert_same {α : Type} (m : List (String × α)) (k : String) (v : α) :
    mapInsert (mapInsert m k v) k v = mapInsert m k v := by
  induction m with
  | nil => simp [mapInsert]
  | cons p rest ih =>
    obtain ⟨k', v'⟩ := p
    by_cases h : k' = k
    · simp [mapInsert, h]
    · simp [mapInsert, h, ih]

theorem mapGet_eq_none_iff {α : Type} (m : List (String × α)) (k : String) :
    mapGet m k = none ↔ k ∉ m.map Prod.fst := by
  induction m with
  | nil => simp [mapGet]
  | cons p rest ih =>
    obtain ⟨k', v'⟩ := p
    by_cases h : k' = k
    · simp [mapGet, h]
    · simp [mapGet, h, ih, Ne.symm h]

/-! ### C10 — Storage.Add on a read error -/

/-- C10. If the definition file cannot be read, `Storage.Add` returns the
read error, leaves the in-memory metadata map untouched, and performs no
write of the backing file (the read precedes any mutation or flush). -/
theorem storageAdd_read_error (readF : String → Except String (List Char))
    (hash : List Char → String) (writeErr : Option String)
    (metadata : List (String × ServiceMeta)) (name serviceID e : String)
    (h : readF name = .error e) :
    storageAdd readF hash writeErr metadata name serviceID = (some e, metadata, 0) := by
  simp [storageAdd, h]

/-- Witness for `storageAdd_read_error` at a concrete ledger and failing read. -/
theorem storageAdd_read_error_witness :
    storageAdd (fun _ => .error "permission denied") (fun _ => "")
      none [("/etc/registrator/a.json", { id := "x", sha1 := "y" })]
      "/etc/registrator/b.json" "sid"
    = (some "permission denied",
       [("/etc/registrator/a.json", { id := "x", sha1 := "y" })], 0) :=
  storageAdd_read_error (fun _ => .error "permission denied") (fun _ => "") none
    [("/etc/registrator/a.json", { id := "x", sha1 := "y" })]
    "/etc/registrator/b.json" "sid" "permission denied" rfl

/-! ### C9 — adapter capability registry: first registration wins -/

/-- C9. For every nonempty scheme name: when nothing is registered under
the name, `register` succeeds (`true`) and `lookup` afterwards returns the
registered factory; once anything is registered under the name, any further
`register` returns `false` and leaves the mapping unchanged; and `lookup`
returns `none` (the not-found indicator) exactly when the name is bound to no
factory. -/
theorem epRegister_first_wins (components : List (String × FactoryV))
    (comp comp' : FactoryV) (name : String) (hname : name ≠ "") :
    (epLookup components name = none →
      (epRegister components comp name).1 = true ∧
      epLookup (epRegister components comp name).2 name = some comp ∧
      (epRegister (epRegister components comp name).2 comp' name).1 = false ∧
      (epRegister (epRegister components comp name).2 comp' name).2 =
        (epRegister components comp name).2) ∧
    ((epLookup components name).isSome →
      (epRegister components comp' name).1 = false ∧
      (epRegister components comp' name).2 = components) ∧
    (epLookup components name = none ↔ name ∉ components.map Prod.fst) := by
  refine ⟨?_, ?_, ?_⟩
  · intro hnone
    have hget : mapGet components name = none := hnone
    have hins : mapGet (mapInsert components name comp) name = some comp :=
      mapGet_mapInsert_self components name comp
    simp [epRegister, epLookup, hname, hget, hins]
  · intro hsome
    rcases Option.isSome_iff_exists.mp hsome with ⟨f, hf⟩
    have hget : mapGet components name = some f := hf
    simp [epRegister, epLookup, hname, hget]
  · exact mapGet_eq_none_iff components name

/-- Witness for `epRegister_first_wins`: registering `consul` twice on an
empty registry. -/
theorem epRegister_first_wins_witness :
    (epRegister [] { tyName := "Factory", tag := 0 } "consul").1 = true ∧
    epLookup (epRegister [] { tyName := "Factory", tag := 0 } "consul").2 "consul"
      = some { tyName := "Factory", tag := 0 } ∧
    (epRegister (epRegister [] { tyName := "Factory", tag := 0 } "consul").2
      { tyName := "Factory", tag := 1 } "consul").1 = false ∧
    (epRegister (epRegister [] { tyName := "Factory", tag := 0 } "consul").2
      { tyName := "Factory", tag := 1 } "consul").2 =
      (epRegister [] { tyName := "Factory", tag := 0 } "consul").2 :=
  (epRegister_first_wins [] { tyName := "Factory", tag := 0 }
    { tyName := "Factory", tag := 1 } "consul" (by decide)).1 rfl

end Registrator

namespace Registrator

/-! ### C8 — startup retry loop -/

theorem retryLoopAux_fatal (ping : Nat → Bool) (N : Nat) :
    ∀ (fuel a : Nat), a ≤ N → (∀ k, a ≤ k → k ≤ N → ping k = false) →
    N + 1 - a ≤ fuel → retryLoopAux ping (N : Int) a fuel = .fatal (N + 1) := by
  intro fuel
  induction fuel with
  | zero => intro a ha _ hfuel; omega
  | succ fuel ih =>
    intro a ha hping hfuel
    have hc : ((N : Int) = -1 ∨ (a : Int) ≤ (N : Int)) := Or.inr (by exact_mod_cast ha)
    have hpa : ping a = false := hping a le_rfl ha
    by_cases haN : a = N
    · subst haN
      simp [retryLoopAux, hc, hpa]
    · have hne : ¬ ((a : Int) = (N : Int)) := by
        intro h; exact haN (by exact_mod_cast h)
      have step : retryLoopAux ping (N : Int) a (fuel + 1)
          = retryLoopAux ping (N : Int) (a + 1) fuel := by
        simp only [retryLoopAux]
        rw [if_pos hc]
        simp [hpa, hne]
      rw [step]
      exact ih (a + 1) (by omega) (fun k hk1 hk2 => hping k (by omega) hk2) (by omega)

theorem retryLoopAux_proceed (ping : Nat → Bool) (ra : Int) (k : Nat)
    (hra : ra = -1 ∨ (k : Int) ≤ ra) (hk : ping k = true) :
    ∀ (fuel a : Nat), a ≤ k → (∀ j, a ≤ j → j < k → ping j = false) →
    k + 1 - a ≤ fuel → retryLoopAux ping ra a fuel = .proceed (k + 1) := by
  intro fuel
  induction fuel with
  | zero => intro a ha _ hfuel; omega
  | succ fuel ih =>
    intro a ha hping hfuel
    have hc : (ra = -1 ∨ (a : Int) ≤ ra) := by
      rcases hra with h | h
      · exact Or.inl h
      · exact Or.inr (le_trans (by exact_mod_cast ha) h)
    by_cases hak : a = k
    · subst hak
      simp [retryLoopAux, hc, hk]
    · have hpa : ping a = false := hping a le_rfl (by omega)
      have hne : ¬ ((a : Int) = ra) := by
        rcases hra with h | h
        · subst h; intro habs; omega
        · intro habs
          have : (a : Int) < (k : Int) := by exact_mod_cast Nat.lt_of_le_of_ne ha hak
          omega
      have step : retryLoopAux ping ra a (fuel + 1)
          = retryLoopAux ping ra (a + 1) fuel := by
        simp only [retryLoopAux]
        rw [if_pos hc]
        simp [hpa, hne]
      rw [step]
      exact ih (a + 1) (by omega) (fun j hj1 hj2 => hping j (by omega) hj2) (by omega)

theorem retryLoopAux_running (ping : Nat → Bool) :
    ∀ (fuel a : Nat), (∀ k, a ≤ k → k < a + fuel → ping k = false) →
    retryLoopAux ping (-1) a fuel = .running (a + fuel) := by
  intro fuel
  induction fuel with
  | zero => intro a _; simp [retryLoopAux]
  | succ fuel ih =>
    intro a hping
    have hpa : ping a = false := hping a le_rfl (by omega)
    have hne : ¬ ((a : Int) = (-1 : Int)) := by omega
    have step : retryLoopAux ping (-1) a (fuel + 1)
        = retryLoopAux ping (-1) (a + 1) fuel := by
      simp only [retryLoopAux]
      simp [hpa, hne]
    rw [step]
    rw [ih (a + 1) (fun k hk1 hk2 => hping k (by omega) (by omega))]
    congr 1
    omega

/-- C8. The startup loop of `main`: with `retryAttempts = N ≥ 0`, if every
`Ping` through attempt `N` fails the loop terminates fatally after exactly
`N + 1` `Ping` calls; if the first success is at attempt `k ≤ N` startup
proceeds after exactly `k + 1` calls (so never more than `N + 1`); with
`retryAttempts = -1` the loop is still retrying after any number of failed
attempts and proceeds as soon as some attempt succeeds. -/
theorem retryLoop_bounded_attempts (ping : Nat → Bool) (N fuel : Nat) :
    ((∀ k, k ≤ N → ping k = false) → N + 1 ≤ fuel →
        retryLoop ping (N : Int) fuel = .fatal (N + 1)) ∧
    (∀ k, k ≤ N → (∀ j, j < k → ping j = false) → ping k = true → k + 1 ≤ fuel →
        retryLoop ping (N : Int) fuel = .proceed (k + 1)) ∧
    ((∀ k, k < fuel → ping k = false) → retryLoop ping (-1) fuel = .running fuel) ∧
    (∀ k, (∀ j, j < k → ping j = false) → ping k = true → k + 1 ≤ fuel →
        retryLoop ping (-1) fuel = .proceed (k + 1)) := by
  refine ⟨?_, ?_, ?_, ?_⟩
  · intro hping hfuel
    exact retryLoopAux_fatal ping N fuel 0 (by omega)
      (fun k _ hk2 => hping k hk2) (by omega)
  · intro k hk hbefore hsucc hfuel
    exact retryLoopAux_proceed ping (N : Int) k (Or.inr (by exact_mod_cast hk)) hsucc
      fuel 0 (by omega) (fun j _ hj => hbefore j hj) (by omega)
  · intro hping
    have := retryLoopAux_running ping fuel 0 (fun k _ hk2 => hping k (by omega))
    simpa [retryLoop] using this
  · intro k hbefore hsucc hfuel
    exact retryLoopAux_proceed ping (-1) k (Or.inl rfl) hsucc
      fuel 0 (by omega) (fun j _ hj => hbefore j hj) (by omega)

/-- Witness for `retryLoop_bounded_attempts`: `retryAttempts = 2` with `ping`
failing on attempts 0 and 1 and succeeding on attempt 2 proceeds after 3
calls; `retryAttempts = 1` with `ping` always failing is fatal after 2 calls;
`retryAttempts = -1` with `ping` always failing is still running after 7
calls. -/
theorem retryLoop_bounded_attempts_witness :
    retryLoop (fun k => decide (k = 2)) ((2 : Nat) : Int) 10 = .proceed 3 ∧
    retryLoop (fun _ => false) ((1 : Nat) : Int) 10 = .fatal 2 ∧
    retryLoop (fun _ => false) (-1) 7 = .running 7 := by
  refine ⟨?_, ?_, ?_⟩
  · exact (retryLoop_bounded_attempts (fun k => decide (k = 2)) 2 10).2.1 2
      (by omega) (fun j hj => by interval_cases j <;> rfl) (by decide) (by omega)
  · exact (retryLoop_bounded_attempts (fun _ => false) 1 10).1
      (fun k _ => rfl) (by omega)
  · exact (retryLoop_bounded_attempts (fun _ => false) 0 7).2.2.1 (fun k _ => rfl)

end Registrator

namespace Registrator

/-! ### Shared lemmas about `newService` and `add` -/

theorem newService_preserves (env : Env) (cfg : Config) (st : BridgeState) (path : String) :
    (newService env cfg st path).1.services = st.services ∧
    (newService env cfg st path).1.fs = st.fs := by
  unfold newService
  cases hr : readFile st.fs path with
  | none => simp
  | some bytes =>
    cases hp : env.parse bytes with
    | none => simp [hp]
    | some d => simp [hp]

/-! ### C5 — a failed backend registration is never recorded -/

/-- C5. If `add` issues a `Register` call and the backend answers it with
an error, `add` records nothing: the `b.services` map and the definition-file
tree are exactly as before the call. -/
theorem add_register_failure_unrecorded (env : Env) (cfg : Config) (st : BridgeState)
    (path : String) (q : Bool) (svc : Service)
    (hmem : BCall.register svc ∈ (Bridge.add env cfg st path q).calls)
    (hfail : env.registerOk svc = false) :
    (Bridge.add env cfg st path q).st.services = st.services ∧
    (Bridge.add env cfg st path q).st.fs = st.fs := by
  have hpres := newService_preserves env cfg st path
  by_cases hr : hasRID path
  · rcases hsvc : (newService env cfg st path).2 with _ | svc'
    · simp [Bridge.add, hr, hsvc] at hmem
    · simp [Bridge.add, hr, hsvc] at hmem
  · rcases hsvc : (newService env cfg st path).2 with _ | svc'
    · simp [Bridge.add, hr, hsvc] at hmem
    · by_cases hok : env.registerOk svc'
      · have hsame : svc = svc' := by
          rcases hpid : parseServiceID svc'.id with _ | pr
          · simpa [Bridge.add, hr, hsvc, hok, hpid] using hmem
          · obtain ⟨h3, rid, p⟩ := pr
            simpa [Bridge.add, hr, hsvc, hok, hpid] using hmem
        rw [hsame] at hfail
        rw [hfail] at hok
        simp at hok
      · simp [Bridge.add, hr, hsvc, hok, hpres.1, hpres.2]

/-- Witness for `add_register_failure_unrecorded`: against a backend that
rejects the registration, `add` on a fresh definition file leaves the state
untouched. -/
theorem add_register_failure_unrecorded_witness :
    BCall.register (mkService failEnv demoCfg "zz9900" demoDefA)
        ∈ (Bridge.add failEnv demoCfg freshSt demoFreshPath false).calls ∧
      (Bridge.add failEnv demoCfg freshSt demoFreshPath false).st.services
          = freshSt.services ∧
        (Bridge.add failEnv demoCfg freshSt demoFreshPath false).st.fs = freshSt.fs :=
  have hmem : BCall.register (mkService failEnv demoCfg "zz9900" demoDefA)
      ∈ (Bridge.add failEnv demoCfg freshSt demoFreshPath false).calls := by decide
  ⟨hmem, add_register_failure_unrecorded failEnv demoCfg freshSt demoFreshPath false
    (mkService failEnv demoCfg "zz9900" demoDefA) hmem rfl⟩

/-! ### C7 — remove on an unknown path is a no-op -/

theorem removeLoop_no_match (rid : String) (l : List (String × Service))
    (h : ∀ pr ∈ l, ∀ host r port, parseServiceID pr.1 = some (host, r, port) → r ≠ rid) :
    removeLoop rid l = (l, []) := by
  induction l with
  | nil => simp [removeLoop]
  | cons pr rest ih =>
    obtain ⟨id, svc⟩ := pr
    have hrest := ih (fun pr hpr => h pr (List.mem_cons_of_mem _ hpr))
    cases hp : parseServiceID id with
    | none => simp [removeLoop, hp, hrest]
    | some tr =>
      obtain ⟨host, r, port⟩ := tr
      have hne : r ≠ rid := h (id, svc) (List.mem_cons_self _ _) host r port hp
      simp [removeLoop, hp, hne, hrest]

/-- C7. `remove` on a path for which nothing is recorded — the path
carries no rid suffix, or no `b.services` entry's ID has a rid capture equal
to the path's rid — performs no backend call and returns with the state
completely unchanged (and `remove` has no error to report). -/
theorem remove_unknown_path_noop (st : BridgeState) (path : String)
    (h : hasRID path = false ∨
      ∀ pr ∈ st.services, ∀ host r port,
        parseServiceID pr.1 = some (host, r, port) → r ≠ (ridOfPath path).getD "") :
    Bridge.remove st path = ⟨st, [], true⟩ := by
  rcases h with h | h
  · simp [Bridge.remove, h]
  · by_cases hr : hasRID path
    · have hloop := removeLoop_no_match _ st.services h
      simp [Bridge.remove, hr, hloop]
    · simp [Bridge.remove, hr]

/-- Witness for `remove_unknown_path_noop`: removing a rid-suffixed path whose
rid `qq77` matches no recorded entry changes nothing and calls nothing. -/
theorem remove_unknown_path_noop_witness :
    Bridge.remove c7st "/etc/registrator/x-ridqq77.json" = ⟨c7st, [], true⟩ :=
  remove_unknown_path_noop c7st "/etc/registrator/x-ridqq77.json"
    (Or.inr (by
      intro pr hpr host r port hp
      rcases List.mem_cons.mp hpr with h1 | h1
      · rw [h1] at hp
        rw [show parseServiceID ("garbage", demoSvcZ).1 = none from by decide] at hp
        cases hp
      · rcases List.mem_singleton.mp h1 with h2
        rw [h2] at hp
        rw [show parseServiceID ("[h1]:zz9900:8080", demoSvcZ).1
              = some ("h1", "zz9900", "8080") from by decide] at hp
        injection hp with hp2
        rw [show (ridOfPath "/etc/registrator/x-ridqq77.json").getD "" = "qq77" from by decide]
        cases hp2
        simp))

end Registrator

namespace Registrator

/-! ### C2 — the dangling sweep respects the host namespace -/

theorem add_calls_isReg (env : Env) (cfg : Config) (st : BridgeState) (path : String)
    (q : Bool) : ∀ c ∈ (Bridge.add env cfg st path q).calls, c.isReg = true := by
  by_cases hr : hasRID path
  · rcases hsvc : (newService env cfg st path).2 with _ | svc'
    · simp [Bridge.add, hr, hsvc]
    · simp [Bridge.add, hr, hsvc]
  · rcases hsvc : (newService env cfg st path).2 with _ | svc'
    · simp [Bridge.add, hr, hsvc]
    · by_cases hok : env.registerOk svc'
      · rcases hpid : parseServiceID svc'.id with _ | pr
        · simp [Bridge.add, hr, hsvc, hok, hpid, BCall.isReg]
        · obtain ⟨h3, rid, p⟩ := pr
          simp [Bridge.add, hr, hsvc, hok, hpid, BCall.isReg]
      · simp [Bridge.add, hr, hsvc, hok, BCall.isReg]

theorem syncLoop_calls_isReg (env : Env) (cfg : Config) (q : Bool) :
    ∀ (paths : List String) (st : BridgeState) (c : BCall),
      c ∈ (syncLoop env cfg q paths st).calls → c.isReg = true := by
  intro paths
  induction paths with
  | nil => intro st c hc; simp [syncLoop] at hc
  | cons path rest ih =>
    intro st c hc
    rcases hsvc : (newService env cfg st path).2 with _ | svc
    · simp [syncLoop, hsvc] at hc
    · by_cases hm : (mapGet (newService env cfg st path).1.services svc.id).isSome
      · simp only [syncLoop, hsvc, hm, if_true] at hc
        rcases List.mem_cons.mp hc with hc | hc
        · rw [hc]; rfl
        · exact ih _ c hc
      · by_cases hao : (Bridge.add env cfg (newService env cfg st path).1 path q).ok
        · simp only [syncLoop, hsvc, hm, hao, if_false, if_true] at hc
          rcases List.mem_append.mp hc with hc | hc
          · exact add_calls_isReg env cfg _ path q c hc
          · exact ih _ c hc
        · simp only [syncLoop, hsvc, hm, hao, if_false] at hc
          exact add_calls_isReg env cfg _ path q c hc

theorem sweepLoop_calls_localhost (env : Env) (svcs : List (String × Service)) :
    ∀ (exts : List Service) (e : Service),
      BCall.deregister e ∈ (sweepLoop env svcs exts).1 →
      ∃ rid port, parseServiceID e.id = some (env.hostname, rid, port) := by
  intro exts
  induction exts with
  | nil => intro e he; simp [sweepLoop] at he
  | cons ext rest ih =>
    intro e he
    rcases hp : parseServiceID ext.id with _ | pr
    · simp only [sweepLoop, hp] at he
      exact ih e he
    · obtain ⟨host, rid, port⟩ := pr
      by_cases hh : host = env.hostname
      · rcases hscan : innerScan rid svcs with _ | b
        · simp only [sweepLoop, hp, hh, if_true, hscan] at he
          simp at he
        · cases b
          · simp only [sweepLoop, hp, hh, if_true, hscan] at he
            rcases List.mem_cons.mp he with he | he
            · have hee : e = ext := by
                have := he
                injection this
              rw [hee, hp, hh]
              exact ⟨rid, port, rfl⟩
            · exact ih e he
          · simp only [sweepLoop, hp, hh, if_true, hscan] at he
            exact ih e he
      · simp only [sweepLoop, hp, hh, if_false] at he
        exact ih e he

/-- C2. A live backend entry whose ID either does not match the
service-ID pattern or whose host capture differs from the local hostname is
never the target of a `Deregister` call anywhere in a `Sync` pass — in
particular not in the dangling-cleanup sweep — whatever the recorded services
(the "ledger") contain. -/
theorem sync_never_deregisters_foreign (env : Env) (cfg : Config) (st : BridgeState)
    (q : Bool) (e : Service)
    (h : ∀ host rid port, parseServiceID e.id = some (host, rid, port) →
      host ≠ env.hostname) :
    BCall.deregister e ∉ (Bridge.sync env cfg st q).calls := by
  intro hmem
  unfold Bridge.sync at hmem
  by_cases hlf : env.lookupFail
  · by_cases hq : q
    · simp [hlf, hq] at hmem
    · simp [hlf, hq] at hmem
  · by_cases hok : (syncLoop env cfg q (jsonFiles st.fs) st).ok
    · by_cases hcl : cfg.cleanup
      · rcases hbl : env.backendList with _ | exts
        · simp only [hlf, if_false, hok, Bool.not_true, hcl, if_true, hbl] at hmem
          have := syncLoop_calls_isReg env cfg q (jsonFiles st.fs) st _ hmem
          simp [BCall.isReg] at this
        · simp only [hlf, if_false, hok, Bool.not_true, hcl, if_true, hbl] at hmem
          rcases List.mem_append.mp hmem with hm | hm
          · have := syncLoop_calls_isReg env cfg q (jsonFiles st.fs) st _ hm
            simp [BCall.isReg] at this
          · obtain ⟨rid, port, hp⟩ := sweepLoop_calls_localhost env _ exts e hm
            exact h env.hostname rid port hp rfl
      · simp only [hlf, if_false, hok, Bool.not_true, hcl, if_false] at hmem
        have := syncLoop_calls_isReg env cfg q (jsonFiles st.fs) st _ hmem
        simp [BCall.isReg] at this
    · simp only [hlf, if_false, hok] at hmem
      have := syncLoop_calls_isReg env cfg q (jsonFiles st.fs) st _ hmem
      simp [BCall.isReg] at this

/-- Witness for `sync_never_deregisters_foreign`: a backend entry of host
`h2` survives a cleanup-enabled `Sync` on host `h1`. -/
theorem sync_never_deregisters_foreign_witness :
    BCall.deregister extForeign
      ∉ (Bridge.sync sweepEnv sweepCfg ⟨[], [], 0⟩ false).calls :=
  sync_never_deregisters_foreign sweepEnv sweepCfg ⟨[], [], 0⟩ false extForeign (by
    intro host rid port hp
    rw [show parseServiceID extForeign.id = some ("h2", "ab12", "8080") from by decide] at hp
    injection hp with h1
    have hhost : host = "h2" := by
      have := congrArg Prod.fst h1
      simpa using this.symm
    rw [hhost]
    decide)

end Registrator

namespace Registrator

/-! ### C4 — Sync does not survive an unreadable definition file -/

/-- C4 (evidence of the code bug).  A `Sync` pass over a directory whose
first enumerated definition file is unreadable crashes — the per-file loop
dereferences the `nil` service at `registered = append(registered, service.ID)`
— and aborts the pass: the perfectly readable second file
`/etc/registrator/good.json` is never registered (no backend call at all),
contradicting "skips that single file … all remaining files are still
processed". -/
theorem sync_crashes_on_unreadable_file :
    (Bridge.sync demoEnv demoCfg c4st false).ok = false ∧
    (Bridge.sync demoEnv demoCfg c4st false).calls = [] ∧
    "/etc/registrator/good.json" ∈ jsonFiles c4st.fs := by decide

/-! ### C6 — the enumeration does not exclude the ledger's backing file -/

/-- C6 counterexample. With the ledger's backing file `storage.json`
present in the configuration directory, the `Sync` enumeration
(`RecursiveFilesLookup(confdir, "*json")`) includes it: its base name matches
`*json` and no exclusion is applied, refuting "never includes the ledger's
own backing file, for every directory contents". -/
theorem jsonFiles_includes_storage_file :
    "/etc/registrator/storage.json" ∈ jsonFiles c6fs ∧
    basename "/etc/registrator/storage.json" = StorageName.toList := by decide

/-- C6 amended. The set of paths `Sync` enumerates is exactly the files
whose base name matches `*json` (ends in `"json"`) — with no exclusion of
the reserved storage file name, which matches and is therefore enumerated
whenever present. -/
theorem jsonFiles_characterization (fs : List (String × Option (List Char)))
    (p : String) :
    p ∈ jsonFiles fs ↔ p ∈ fs.map Prod.fst ∧ matchStarJson (basename p) = true := by
  simp [jsonFiles, List.mem_filter]

/-! ### C1 — the ID's middle segment is not a content hash -/

/-- C1 counterexample. Two definition files at the same rid-suffixed path
with different byte contents (the `name` field differs) produce the *same*
service ID `[h1]:ab12:8080`: changing bytes of the file does not change the
ID, because the middle segment is the rid parsed from the file name, not a
hash of the content. -/
theorem newService_id_ignores_content :
    demoBytesA ≠ demoBytesB ∧
    demoEnv.parse demoBytesA ≠ demoEnv.parse demoBytesB ∧
    ((newService demoEnv demoCfg c3st demoRidPath).2.map Service.id)
      = some "[h1]:ab12:8080" ∧
    ((newService demoEnv demoCfg c1stB demoRidPath).2.map Service.id)
      = some "[h1]:ab12:8080" := by decide

/-- C1 amended. For a rid-suffixed path the service ID built by
`newService` is `[hostname]:<rid from the file name>:<port>`: it is fully
determined by the path and the parsed port.  Byte-identical content therefore
yields the same ID, but so does *any* content change that keeps the port —
the middle segment is the file name's rid, not a hash of the file's bytes. -/
theorem newService_id_from_filename (env : Env) (cfg : Config)
    (st₁ st₂ : BridgeState) (path : String) (b₁ b₂ : List Char) (d₁ d₂ : SvcDef)
    (hrid : hasRID path = true)
    (h₁ : readFile st₁.fs path = some b₁) (hp₁ : env.parse b₁ = some d₁)
    (h₂ : readFile st₂.fs path = some b₂) (hp₂ : env.parse b₂ = some d₂)
    (hport : d₁.port = d₂.port) :
    ∃ s₁ s₂,
      (newService env cfg st₁ path).2 = some s₁ ∧
      (newService env cfg st₂ path).2 = some s₂ ∧
      s₁.id = s₂.id ∧
      s₁.id = mkServiceID env.hostname ((ridOfPath path).getD "") d₁.port := by
  refine ⟨mkService env cfg ((ridOfPath path).getD "") d₁,
          mkService env cfg ((ridOfPath path).getD "") d₂, ?_, ?_, ?_, ?_⟩
  · simp [newService, h₁, hp₁, hrid]
  · simp [newService, h₂, hp₂, hrid]
  · simp [mkService, mkServiceID, hport]
  · simp [mkService]

/-- Witness for `newService_id_from_filename` at the two sample contents. -/
theorem newService_id_from_filename_witness :
    ∃ s₁ s₂,
      (newService demoEnv demoCfg c3st demoRidPath).2 = some s₁ ∧
      (newService demoEnv demoCfg c1stB demoRidPath).2 = some s₂ ∧
      s₁.id = s₂.id ∧
      s₁.id = mkServiceID demoEnv.hostname ((ridOfPath demoRidPath).getD "")
        demoDefA.port :=
  newService_id_from_filename demoEnv demoCfg c3st c1stB demoRidPath demoBytesA
    demoBytesB demoDefA demoDefB (by decide) (by decide) (by decide) (by decide)
    (by decide) rfl

end Registrator

namespace Registrator

/-! ### C3 — add twice: at most one Register call -/

/-- C3 counterexample. Two successful successive `add` calls for an
unchanged rid-suffixed definition file issue *zero* backend `Register` calls
(the rid branch records the entry locally without contacting the backend),
refuting "exactly one backend Register call"; the recorded entry is still
exactly one and the file is untouched. -/
theorem add_twice_rid_path_zero_registers :
    (Bridge.add demoEnv demoCfg c3st demoRidPath false).ok = true ∧
    (Bridge.add demoEnv demoCfg (Bridge.add demoEnv demoCfg c3st demoRidPath false).st
        demoRidPath false).ok = true ∧
    ((Bridge.add demoEnv demoCfg c3st demoRidPath false).calls ++
      (Bridge.add demoEnv demoCfg (Bridge.add demoEnv demoCfg c3st demoRidPath false).st
        demoRidPath false).calls).countP BCall.isReg = 0 ∧
    (Bridge.add demoEnv demoCfg (Bridge.add demoEnv demoCfg c3st demoRidPath false).st
        demoRidPath false).st.services.length = 1 ∧
    (Bridge.add demoEnv demoCfg (Bridge.add demoEnv demoCfg c3st demoRidPath false).st
        demoRidPath false).st.fs = c3st.fs := by decide

/-- C3 amended. For a readable, parsable definition file and a backend
that accepts the registration, calling `add(path)` twice in succession makes
*at most* one backend `Register` call and records exactly one entry, the
second call never reaching the backend: for a rid-suffixed path both calls
are backend-silent and record the same entry; for a fresh path the first
`add` issues the single `Register` and renames the file, so the second call
finds nothing at `path` and is a complete no-op. -/
theorem add_twice_at_most_one_register (env : Env) (cfg : Config) (st : BridgeState)
    (path : String) (q : Bool) (b : List Char) (d : SvcDef)
    (hread : readFile st.fs path = some b) (hparse : env.parse b = some d) :
    (hasRID path = true →
      (Bridge.add env cfg st path q).calls = [] ∧
      (Bridge.add env cfg (Bridge.add env cfg st path q).st path q).calls = [] ∧
      (Bridge.add env cfg (Bridge.add env cfg st path q).st path q).ok = true ∧
      (Bridge.add env cfg (Bridge.add env cfg st path q).st path q).st.services
        = mapInsert st.services
            (mkService env cfg ((ridOfPath path).getD "") d).id
            (mkService env cfg ((ridOfPath path).getD "") d) ∧
      (Bridge.add env cfg (Bridge.add env cfg st path q).st path q).st.fs = st.fs) ∧
    (hasRID path = false →
      env.registerOk (mkService env cfg (env.rands st.randIdx) d) = true →
      parseServiceID (mkService env cfg (env.rands st.randIdx) d).id
        = some (env.hostname, env.rands st.randIdx, toString d.port) →
      hasRID (ridPath path (env.rands st.randIdx)) = true →
      (Bridge.add env cfg st path q).calls
        = [BCall.register (mkService env cfg (env.rands st.randIdx) d)] ∧
      (Bridge.add env cfg (Bridge.add env cfg st path q).st path q).calls = [] ∧
      (Bridge.add env cfg (Bridge.add env cfg st path q).st path q).ok = true ∧
      (Bridge.add env cfg (Bridge.add env cfg st path q).st path q).st.services
        = mapInsert st.services
            (mkService env cfg (env.rands st.randIdx) d).id
            (mkService env cfg (env.rands st.randIdx) d)) := by
  constructor
  · intro hrid
    refine ⟨?_, ?_, ?_, ?_, ?_⟩
    · simp [Bridge.add, newService, hread, hparse, hrid]
    · simp [Bridge.add, newService, hread, hparse, hrid]
    · simp [Bridge.add, newService, hread, hparse, hrid]
    · simp [Bridge.add, newService, hread, hparse, hrid, mapInsert_mapInsert_same]
    · simp [Bridge.add, newService, hread, hparse, hrid]
  · intro hnr hok hpid hnp
    have hneq : ridPath path (env.rands st.randIdx) ≠ path := by
      intro hEq
      rw [hEq, hnr] at hnp
      cases hnp
    have hnone : readFile
        (mapInsert (mapDelete st.fs path) (ridPath path (env.rands st.randIdx))
          (some b)) path = none := by
      simp [readFile, mapGet_mapInsert_ne _ _ _ _ hneq, mapGet_mapDelete_self]
    refine ⟨?_, ?_, ?_, ?_⟩
    · simp [Bridge.add, newService, hread, hparse, hnr, hok, hpid]
    · simp [Bridge.add, newService, hread, hparse, hnr, hok, hpid, hnone]
    · simp [Bridge.add, newService, hread, hparse, hnr, hok, hpid, hnone]
    · simp [Bridge.add, newService, hread, hparse, hnr, hok, hpid, hnone]

/-- Witness for `add_twice_at_most_one_register` on a fresh path: exactly one
`Register` call happens across the two `add`s and exactly the one entry is
recorded. -/
theorem add_twice_at_most_one_register_witness :
    (Bridge.add demoEnv demoCfg freshSt demoFreshPath false).calls
      = [BCall.register (mkService demoEnv demoCfg (demoEnv.rands freshSt.randIdx)
          demoDefA)] ∧
    (Bridge.add demoEnv demoCfg (Bridge.add demoEnv demoCfg freshSt demoFreshPath
        false).st demoFreshPath false).calls = [] ∧
    (Bridge.add demoEnv demoCfg (Bridge.add demoEnv demoCfg freshSt demoFreshPath
        false).st demoFreshPath false).ok = true ∧
    (Bridge.add demoEnv demoCfg (Bridge.add demoEnv demoCfg freshSt demoFreshPath
        false).st demoFreshPath false).st.services
      = mapInsert freshSt.services
          (mkService demoEnv demoCfg (demoEnv.rands freshSt.randIdx) demoDefA).id
          (mkService demoEnv demoCfg (demoEnv.rands freshSt.randIdx) demoDefA) :=
  (add_twice_at_most_one_register demoEnv demoCfg freshSt demoFreshPath false
      demoBytesA demoDefA (by decide) (by decide)).2
    (by decide) rfl (by decide) (by decide)

end Registrator
